import Mathlib

set_option linter.unusedSectionVars false
set_option linter.unusedVariables false

/-!
Shallow embedding of `correlation.py` (package `correlation`): confidence
intervals for correlation coefficients.

The embedding is generic over a linear ordered field `α` (the numeric type)
and a type `K` of extra keyword arguments forwarded to the statistic
function.  External capabilities of the code — the correlation statistic
providers (scipy's kendalltau / spearmanr / pearsonr, or a user-supplied
function), the transcendental routines (`np.log`, `np.exp`, `np.sqrt`), the
inverse normal CDF (`scipy.stats.norm.ppf`) and the quantile routine
(`np.quantile`) — are passed in as parameters (the `Ops` structure and the
`StatFn` arguments).  The output of the uniform index sampler
(`np.random.choice(np.arange(n), size=(bootstrap_samples, n))`) is passed in
as the oracle matrix `newIdx`; theorems that need its shape contract state it
as a hypothesis.  Failures (`raise KeyError`, calling a `None` statistic)
are modelled with `Except CorrError`.
-/

/-- A correlation statistic provider: two samples plus the extra keyword
arguments, returning `(coefficient, p_value)` (the capability used at
`corr_func(x, y, **kwargs)` in `correlation.py`). -/
abbrev StatFn (α : Type) (K : Type) := List α → List α → K → α × α

/-- The numeric external capabilities used by `corr`: `np.log`, `np.exp`,
`np.sqrt`, `scipy.stats.norm.ppf` and `np.quantile`. -/
structure Ops (α : Type) where
  log : α → α
  exp : α → α
  sqrt : α → α
  ppf : α → α
  quantile : List α → α → α

/-- The failure kinds `corr` can surface: the explicit
`KeyError('method must be one of the following strings: ...')` raised at
lines 107-108 of `correlation.py` (`invalidMethod`), the `TypeError` from
invoking a `None` statistic function (`noneNotCallable`), and `KeyError`s
from the lookup tables `param_corr_thres` / `se_numerator_func` /
`se_denominator_diff` on a missing key. -/
inductive CorrError where
  | invalidMethod
  | noneNotCallable
  | missingThresKey
  | missingSEKey
  deriving DecidableEq

/-- Result tuple of `corr`: `(corr_mean, corr_lower, corr_upper, p_value)`
with the bounds `none` when the CI computation is skipped. -/
abbrev CorrResult (α : Type) := α × Option α × Option α × α

variable {α : Type} {K : Type} [LinearOrderedField α]

/-- `bootstrap_samples_default = 5000` (line 77 of `correlation.py`). -/
def bootstrap_samples_default : ℕ := 5000

/-- `alpha_default = 0.05` (line 78 of `correlation.py`). -/
def alpha_default : α := 1 / 20

/-- The dictionary `corr_functions` (lines 80-83 of `correlation.py`).
The outer `Option` is key membership in the dict; the inner `Option` is the
stored value, which is `None` for key `"customized"`.  The three scipy
statistic providers are the parameters `bk`, `bs`, `bp`. -/
def corr_functions (bk bs bp : StatFn α K) (method : String) :
    Option (Option (StatFn α K)) :=
  if method = "kendall_tau" then some (some bk)
  else if method = "spearman_rho" then some (some bs)
  else if method = "pearson_r" then some (some bp)
  else if method = "customized" then some none
  else none

/-- The dictionary `param_corr_thres` (lines 84-87 of `correlation.py`):
`{'kendall_tau': 0.8, 'spearman_rho': 0.95, 'pearson_r': 1., 'customized': 0.}`.
`none` models a missing key. -/
def param_corr_thres (method : String) : Option α :=
  if method = "kendall_tau" then some (4 / 5)
  else if method = "spearman_rho" then some (19 / 20)
  else if method = "pearson_r" then some 1
  else if method = "customized" then some 0
  else none

/-- The dictionary `se_numerator_func` (lines 88-90 of `correlation.py`):
`{'kendall_tau': lambda r: .437, 'spearman_rho': lambda r: 1 + r ** 2 / 2.,
'pearson_r': lambda r: 1}`.  Note it has no `'customized'` key. -/
def se_numerator_func (method : String) : Option (α → α) :=
  if method = "kendall_tau" then some (fun _ => 437 / 1000)
  else if method = "spearman_rho" then some (fun r => 1 + r ^ 2 / 2)
  else if method = "pearson_r" then some (fun _ => 1)
  else none

/-- The dictionary `se_denominator_diff` (lines 91-93 of `correlation.py`):
`{'kendall_tau': 4, 'spearman_rho': 3, 'pearson_r': 3}`.  No `'customized'`
key. -/
def se_denominator_diff (method : String) : Option ℕ :=
  if method = "kendall_tau" then some 4
  else if method = "spearman_rho" then some 3
  else if method = "pearson_r" then some 3
  else none

/-- Resolution of the statistic function (lines 99-108 of `correlation.py`):
`custom_corr_func` when `method == 'customized' and custom_corr_func is not
None`; otherwise the `corr_functions` dict entry, raising the
`KeyError` (modelled `invalidMethod`) when the key is absent.  Note that for
`method = "customized"` with no custom function the dict lookup succeeds and
yields the stored `None`. -/
def resolveStat (bk bs bp : StatFn α K) (method : String)
    (custom_corr_func : Option (StatFn α K)) :
    Except CorrError (Option (StatFn α K)) :=
  if method = "customized" ∧ custom_corr_func.isSome = true then
    Except.ok custom_corr_func
  else
    match corr_functions bk bs bp method with
    | some f => Except.ok f
    | none => Except.error CorrError.invalidMethod

/-- The effective significance level after lines 116-117 of
`correlation.py`: `if ci is not None: alpha = 1 - ci`. -/
def alphaEff (alpha : α) (ci : Option α) : α :=
  match ci with
  | some c => 1 - c
  | none => alpha

/-- One resampled sequence: `x[new_idx[i]]` (numpy fancy indexing, line 144
of `correlation.py`) for a drawn index row.  Indices are in `0..n-1` by the
sampler's contract; out-of-range positions default to `0` in the embedding
and are excluded by hypotheses where relevant. -/
def resampleRow (x : List α) (row : List ℕ) : List α :=
  row.map (fun j => x.getD j 0)

/-- The list `bootstrap_corrs` (lines 145-146 of `correlation.py`): the
coefficient (first component only — the p-value is discarded by the `[0]`)
of the statistic applied to the pair `(x[new_idx[i]], y[new_idx[i]])`, for
`i in range(bootstrap_samples)`, forwarding `kwargs`. -/
def bootstrapCorrs (f : StatFn α K) (x y : List α) (kwargs : K)
    (bootstrap_samples : ℕ) (newIdx : List (List ℕ)) : List α :=
  (List.range bootstrap_samples).map (fun i =>
    (f (resampleRow x (newIdx.getD i []))
       (resampleRow y (newIdx.getD i [])) kwargs).1)

/-- The Fisher-type transform of line 128 of `correlation.py`:
`z = np.log((1 + corr_mean) / (1 - corr_mean)) / 2`. -/
def fisherZ (ops : Ops α) (r : α) : α := ops.log ((1 + r) / (1 - r)) / 2

/-- The inverse transform of lines 135-136 of `correlation.py`:
`(np.exp(2 * z) - 1) / (np.exp(2 * z) + 1)`. -/
def invFisher (ops : Ops α) (z : α) : α :=
  (ops.exp (2 * z) - 1) / (ops.exp (2 * z) + 1)

/-- The normal-approximation branch (lines 128-136 of `correlation.py`)
packaged as the full result tuple.  `num` is the already-looked-up
`se_numerator_func[method]` applied at `corr_mean`, `off` the
`se_denominator_diff[method]` entry. -/
def normalResult (ops : Ops α) (corr_mean p_value alpha : α)
    (sample_size : ℕ) (num : α) (off : ℕ) : CorrResult α :=
  let z := fisherZ ops corr_mean
  let se := ops.sqrt (num / ((sample_size : α) - (off : α)))
  let z_lower := z - ops.ppf (1 - alpha / 2) * se
  let z_upper := z + ops.ppf (1 - alpha / 2) * se
  (corr_mean, some (invFisher ops z_lower), some (invFisher ops z_upper), p_value)

/-- The resampling branch (lines 142-148 of `correlation.py`) packaged as
the full result tuple: `np.quantile` of the bootstrap coefficients at
`alpha / 2` and `1 - alpha / 2`. -/
def bootstrapResult (ops : Ops α) (f : StatFn α K) (x y : List α) (kwargs : K)
    (alpha : α) (bootstrap_samples : ℕ) (newIdx : List (List ℕ))
    (corr_mean p_value : α) : CorrResult α :=
  (corr_mean,
    some (ops.quantile (bootstrapCorrs f x y kwargs bootstrap_samples newIdx)
      (alpha / 2)),
    some (ops.quantile (bootstrapCorrs f x y kwargs bootstrap_samples newIdx)
      (1 - alpha / 2)),
    p_value)

/-- The body of `corr` after the statistic function has been resolved to
`f` (lines 110-150 of `correlation.py`): invoke the statistic once, return
early on `skip_ci` or `abs(corr_mean) == 1`, apply the `ci` override, then
select the normal-approximation branch when `(not bootstrap) and
(abs(corr_mean) < param_corr_thres[method])` (keeping Python's
short-circuit: `param_corr_thres` is not consulted when `bootstrap` is
true) and the resampling branch otherwise. -/
def corrWith (ops : Ops α) (f : StatFn α K) (x y : List α) (method : String)
    (skip_ci : Bool) (alpha : α) (ci : Option α) (bootstrap_samples : ℕ)
    (bootstrap : Bool) (kwargs : K) (newIdx : List (List ℕ)) :
    Except CorrError (CorrResult α) :=
  if skip_ci then
    Except.ok ((f x y kwargs).1, none, none, (f x y kwargs).2)
  else if |(f x y kwargs).1| = 1 then
    Except.ok ((f x y kwargs).1, some (f x y kwargs).1, some (f x y kwargs).1,
      (f x y kwargs).2)
  else if bootstrap then
    Except.ok (bootstrapResult ops f x y kwargs (alphaEff alpha ci)
      bootstrap_samples newIdx (f x y kwargs).1 (f x y kwargs).2)
  else
    match param_corr_thres (α := α) method with
    | none => Except.error CorrError.missingThresKey
    | some thres =>
      if |(f x y kwargs).1| < thres then
        match se_numerator_func (α := α) method, se_denominator_diff method with
        | some num, some off =>
          Except.ok (normalResult ops (f x y kwargs).1 (f x y kwargs).2
            (alphaEff alpha ci) x.length (num (f x y kwargs).1) off)
        | some _, none => Except.error CorrError.missingSEKey
        | none, _ => Except.error CorrError.missingSEKey
      else
        Except.ok (bootstrapResult ops f x y kwargs (alphaEff alpha ci)
          bootstrap_samples newIdx (f x y kwargs).1 (f x y kwargs).2)

/-- The function `corr` of `correlation.py` (lines 96-150): resolve the
statistic function, fail on an unknown method, fail on invoking the `None`
statistic stored for `"customized"` when no custom function was supplied,
otherwise run the body. -/
def corr (ops : Ops α) (bk bs bp : StatFn α K) (x y : List α) (method : String)
    (skip_ci : Bool) (alpha : α) (ci : Option α) (bootstrap_samples : ℕ)
    (bootstrap : Bool) (custom_corr_func : Option (StatFn α K)) (kwargs : K)
    (newIdx : List (List ℕ)) : Except CorrError (CorrResult α) :=
  match resolveStat bk bs bp method custom_corr_func with
  | Except.error e => Except.error e
  | Except.ok none => Except.error CorrError.noneNotCallable
  | Except.ok (some f) =>
    corrWith ops f x y method skip_ci alpha ci bootstrap_samples bootstrap
      kwargs newIdx

/-! ### Helper lemmas about resolution and the lookup tables -/

lemma resolveStat_kendall (bk bs bp : StatFn α K)
    (custom : Option (StatFn α K)) :
    resolveStat bk bs bp "kendall_tau" custom = Except.ok (some bk) := by
  have h : ¬(("kendall_tau" : String) = "customized" ∧ custom.isSome = true) :=
    fun hc => absurd hc.1 (by decide)
  unfold resolveStat
  rw [if_neg h]
  rfl

lemma resolveStat_spearman (bk bs bp : StatFn α K)
    (custom : Option (StatFn α K)) :
    resolveStat bk bs bp "spearman_rho" custom = Except.ok (some bs) := by
  have h : ¬(("spearman_rho" : String) = "customized" ∧ custom.isSome = true) :=
    fun hc => absurd hc.1 (by decide)
  unfold resolveStat
  rw [if_neg h]
  rfl

lemma resolveStat_pearson (bk bs bp : StatFn α K)
    (custom : Option (StatFn α K)) :
    resolveStat bk bs bp "pearson_r" custom = Except.ok (some bp) := by
  have h : ¬(("pearson_r" : String) = "customized" ∧ custom.isSome = true) :=
    fun hc => absurd hc.1 (by decide)
  unfold resolveStat
  rw [if_neg h]
  rfl

lemma resolveStat_customized_some (bk bs bp f : StatFn α K) :
    resolveStat bk bs bp "customized" (some f) = Except.ok (some f) := by
  unfold resolveStat
  rw [if_pos ⟨rfl, rfl⟩]

lemma resolveStat_customized_none (bk bs bp : StatFn α K) :
    resolveStat bk bs bp "customized" (none : Option (StatFn α K))
      = Except.ok none := by
  have h : ¬(("customized" : String) = "customized"
      ∧ (Option.isSome (none : Option (StatFn α K))) = true) := by
    rintro ⟨-, h2⟩
    simp at h2
  unfold resolveStat
  rw [if_neg h]
  rfl

lemma corr_functions_none_iff (bk bs bp : StatFn α K) (method : String) :
    corr_functions bk bs bp method = none
      ↔ method ∉
          (["kendall_tau", "spearman_rho", "pearson_r", "customized"] :
            List String) := by
  unfold corr_functions
  by_cases h1 : method = "kendall_tau" <;>
    by_cases h2 : method = "spearman_rho" <;>
      by_cases h3 : method = "pearson_r" <;>
        by_cases h4 : method = "customized" <;>
          simp [h1, h2, h3, h4]

/-! ### Helper lemmas unfolding `corr` on each control path -/

lemma corr_resolved (ops : Ops α) (bk bs bp f : StatFn α K) (x y : List α)
    (method : String) (skip_ci : Bool) (alpha : α) (ci : Option α) (B : ℕ)
    (bootstrap : Bool) (custom : Option (StatFn α K)) (kwargs : K)
    (newIdx : List (List ℕ))
    (hres : resolveStat bk bs bp method custom = Except.ok (some f)) :
    corr ops bk bs bp x y method skip_ci alpha ci B bootstrap custom kwargs
        newIdx
      = corrWith ops f x y method skip_ci alpha ci B bootstrap kwargs newIdx := by
  unfold corr
  rw [hres]

lemma corrWith_skip (ops : Ops α) (f : StatFn α K) (x y : List α)
    (method : String) (alpha : α) (ci : Option α) (B : ℕ) (bootstrap : Bool)
    (kwargs : K) (newIdx : List (List ℕ)) :
    corrWith ops f x y method true alpha ci B bootstrap kwargs newIdx
      = Except.ok ((f x y kwargs).1, none, none, (f x y kwargs).2) := by
  simp [corrWith]

lemma corrWith_degenerate (ops : Ops α) (f : StatFn α K) (x y : List α)
    (method : String) (alpha : α) (ci : Option α) (B : ℕ) (bootstrap : Bool)
    (kwargs : K) (newIdx : List (List ℕ))
    (hc : |(f x y kwargs).1| = 1) :
    corrWith ops f x y method false alpha ci B bootstrap kwargs newIdx
      = Except.ok ((f x y kwargs).1, some (f x y kwargs).1,
          some (f x y kwargs).1, (f x y kwargs).2) := by
  simp [corrWith, hc]

lemma corrWith_normal_eq (ops : Ops α) (f : StatFn α K) (x y : List α)
    (method : String) (alpha : α) (ci : Option α) (B : ℕ) (kwargs : K)
    (newIdx : List (List ℕ)) (t : α) (num : α → α) (off : ℕ)
    (hc1 : ¬ |(f x y kwargs).1| = 1)
    (hthres : param_corr_thres (α := α) method = some t)
    (habs : |(f x y kwargs).1| < t)
    (hnum : se_numerator_func (α := α) method = some num)
    (hoff : se_denominator_diff method = some off) :
    corrWith ops f x y method false alpha ci B false kwargs newIdx
      = Except.ok (normalResult ops (f x y kwargs).1 (f x y kwargs).2
          (alphaEff alpha ci) x.length (num (f x y kwargs).1) off) := by
  simp [corrWith, hc1, hthres, hnum, hoff, habs]

lemma corrWith_bootstrap_true (ops : Ops α) (f : StatFn α K) (x y : List α)
    (method : String) (alpha : α) (ci : Option α) (B : ℕ) (kwargs : K)
    (newIdx : List (List ℕ))
    (hc1 : ¬ |(f x y kwargs).1| = 1) :
    corrWith ops f x y method false alpha ci B true kwargs newIdx
      = Except.ok (bootstrapResult ops f x y kwargs (alphaEff alpha ci) B
          newIdx (f x y kwargs).1 (f x y kwargs).2) := by
  simp [corrWith, hc1]

lemma corrWith_bootstrap_ge (ops : Ops α) (f : StatFn α K) (x y : List α)
    (method : String) (alpha : α) (ci : Option α) (B : ℕ) (kwargs : K)
    (newIdx : List (List ℕ)) (t : α)
    (hc1 : ¬ |(f x y kwargs).1| = 1)
    (hthres : param_corr_thres (α := α) method = some t)
    (habs : ¬ |(f x y kwargs).1| < t) :
    corrWith ops f x y method false alpha ci B false kwargs newIdx
      = Except.ok (bootstrapResult ops f x y kwargs (alphaEff alpha ci) B
          newIdx (f x y kwargs).1 (f x y kwargs).2) := by
  simp [corrWith, hc1, hthres, habs]

lemma corrWith_ne_invalidMethod (ops : Ops α) (f : StatFn α K) (x y : List α)
    (method : String) (skip_ci : Bool) (alpha : α) (ci : Option α) (B : ℕ)
    (bootstrap : Bool) (kwargs : K) (newIdx : List (List ℕ)) :
    corrWith ops f x y method skip_ci alpha ci B bootstrap kwargs newIdx
      ≠ Except.error CorrError.invalidMethod := by
  unfold corrWith
  split_ifs <;> try simp
  split
  · simp
  · split_ifs
    · split <;> simp
    · simp

/-! ### Arithmetic facts about the inverse Fisher transform -/

lemma invFisher_bounds (ops : Ops α) (hexp : ∀ z : α, 0 < ops.exp z) (z : α) :
    -1 < invFisher ops z ∧ invFisher ops z < 1 := by
  have h := hexp (2 * z)
  have hd : 0 < ops.exp (2 * z) + 1 := by linarith
  constructor
  · rw [invFisher, lt_div_iff hd]
    linarith
  · rw [invFisher, div_lt_one hd]
    linarith

lemma invFisher_mono (ops : Ops α) (hexp : ∀ z : α, 0 < ops.exp z)
    (hmono : ∀ a b : α, a ≤ b → ops.exp a ≤ ops.exp b)
    {a b : α} (hab : a ≤ b) : invFisher ops a ≤ invFisher ops b := by
  have h1 := hexp (2 * a)
  have h2 := hexp (2 * b)
  have hle : ops.exp (2 * a) ≤ ops.exp (2 * b) := hmono _ _ (by linarith)
  rw [invFisher, invFisher, div_le_div_iff (by linarith) (by linarith)]
  nlinarith

lemma invFisher_fisherZ (ops : Ops α)
    (hexplog : ∀ w : α, 0 < w → ops.exp (ops.log w) = w)
    {c : α} (hc : |c| < 1) : invFisher ops (fisherZ ops c) = c := by
  obtain ⟨hl, hr⟩ := abs_lt.mp hc
  have h1 : (0 : α) < 1 - c := by linarith
  have h2 : (0 : α) < 1 + c := by linarith
  have hw : 0 < (1 + c) / (1 - c) := div_pos h2 h1
  rw [invFisher, fisherZ]
  have h2z : 2 * (ops.log ((1 + c) / (1 - c)) / 2)
      = ops.log ((1 + c) / (1 - c)) := by ring
  rw [h2z, hexplog _ hw]
  rw [div_eq_iff (by linarith : (1 + c) / (1 - c) + 1 ≠ 0)]
  field_simp
  ring

/-! ### Concrete rational instances of the external capabilities

These are used to instantiate theorems with hypotheses at concrete inputs.
`npQuantile` implements the linear-interpolation quantile convention of
`np.quantile` (sort ascending, `h = q * (m - 1)`, interpolate between the
floor and ceiling order statistics). -/

def insertSorted (a : ℚ) : List ℚ → List ℚ
  | [] => [a]
  | b :: t => if a ≤ b then a :: b :: t else b :: insertSorted a t

def sortAsc (l : List ℚ) : List ℚ := l.foldr insertSorted []

def npQuantile (l : List ℚ) (q : ℚ) : ℚ :=
  let s := sortAsc l
  if s.length = 0 then 0
  else
    let h : ℚ := q * ((s.length : ℚ) - 1)
    let lo : ℤ := ⌊h⌋
    let hi : ℤ := ⌈h⌉
    let a := s.getD lo.toNat 0
    let b := s.getD hi.toNat 0
    a + (h - (lo : ℚ)) * (b - a)

/-- A trivial statistic provider returning coefficient `0` and p-value `0`
on every input (within the capability contract). -/
def dummyStat : StatFn ℚ Unit := fun _ _ _ => (0, 0)

/-- A statistic provider returning coefficient `1` and p-value `0`. -/
def oneStat : StatFn ℚ Unit := fun _ _ _ => (1, 0)

/-- A statistic provider within the capability contract (coefficient is
clamped into `[-1, 1]`, p-value `0 ∈ [0, 1]`) whose coefficient is the first
element of `x`; it witnesses that bootstrap quantiles need not bracket the
full-sample coefficient. -/
def cexStat : StatFn ℚ Unit := fun x _ _ => (max (-1) (min 1 (x.headD 0)), 0)

/-- Rational stand-ins for the numeric capabilities, with `np.quantile`
implemented exactly (linear interpolation) and the transcendental slots
filled by dummies (only paths that never consult them use this). -/
def ratNumOps : Ops ℚ :=
  { log := fun _ => 0, exp := fun _ => 0, sqrt := fun _ => 0,
    ppf := fun _ => 0, quantile := npQuantile }

/-- A computable strictly positive monotone surrogate for `exp` on ℚ that
is a left inverse of `qlogFn` on positives. -/
def qexpFn (z : ℚ) : ℚ := if 0 ≤ z then z + 1 else 1 / (1 - z)

/-- A computable surrogate for `log` on ℚ matching `qexpFn`. -/
def qlogFn (w : ℚ) : ℚ := if 1 ≤ w then w - 1 else 1 - 1 / w

/-- Rational capabilities whose `exp`/`log` satisfy the contracts
(positivity, monotonicity, right-inverse on positives) used by the
interval-shape theorems. -/
def qFieldOps : Ops ℚ :=
  { log := qlogFn, exp := qexpFn, sqrt := fun _ => 0,
    ppf := fun _ => 0, quantile := npQuantile }

lemma qexpFn_pos : ∀ z : ℚ, 0 < qexpFn z := by
  intro z
  unfold qexpFn
  split_ifs with h
  · linarith
  · have : (0 : ℚ) < 1 - z := by linarith
    positivity

lemma qexpFn_mono : ∀ a b : ℚ, a ≤ b → qexpFn a ≤ qexpFn b := by
  intro a b hab
  unfold qexpFn
  split_ifs with h1 h2 h2
  · linarith
  · linarith
  · have ha : (0 : ℚ) < 1 - a := by linarith
    have h1a : 1 / (1 - a) ≤ 1 := by
      rw [div_le_one ha]
      linarith
    linarith
  · have ha : (0 : ℚ) < 1 - a := by linarith
    have hb : (0 : ℚ) < 1 - b := by linarith
    rw [div_le_div_iff ha hb]
    linarith

lemma qexpFn_qlogFn : ∀ w : ℚ, 0 < w → qexpFn (qlogFn w) = w := by
  intro w hw
  unfold qexpFn qlogFn
  split_ifs with h1 h2 h2
  · ring
  · linarith
  · exfalso
    have hinv : 1 < 1 / w := by
      rw [lt_div_iff hw]
      linarith
    linarith
  · have hinv : 1 / w > 0 := by positivity
    field_simp

lemma corrWith_ok_components (ops : Ops α) (f : StatFn α K) (x y : List α)
    (method : String) (alpha : α) (ci : Option α) (B : ℕ) (bootstrap : Bool)
    (kwargs : K) (newIdx : List (List ℕ)) :
    ∀ res : CorrResult α,
      corrWith ops f x y method false alpha ci B bootstrap kwargs newIdx
        = Except.ok res →
      res.1 = (f x y kwargs).1 ∧ res.2.2.2 = (f x y kwargs).2 := by
  intro res h
  unfold corrWith at h
  repeat' split at h
  all_goals first
    | exact Except.noConfusion h
    | (cases h; exact ⟨rfl, rfl⟩)

/-! ### Claim theorems -/

/-- C5: with `skip_ci` false and a statistic whose coefficient has absolute
value exactly 1, `corr` returns `(coefficient, coefficient, coefficient,
p_value)`, and the result is the same for every choice of the numeric
capabilities (`log`, `exp`, `sqrt`, `ppf`, `quantile`): the degenerate
check at lines 114-115 of `correlation.py` returns before the Fisher
transform's division by `(1 - coefficient)` is ever evaluated, so that
division never executes with `|coefficient| = 1`. -/
theorem corr_degenerate_collapse
    (bk bs bp f : StatFn α K) (x y : List α) (method : String) (alpha : α)
    (ci : Option α) (B : ℕ) (bootstrap : Bool) (custom : Option (StatFn α K))
    (kwargs : K) (newIdx : List (List ℕ))
    (hres : resolveStat bk bs bp method custom = Except.ok (some f))
    (hc : |(f x y kwargs).1| = 1) :
    ∀ ops ops' : Ops α,
      corr ops bk bs bp x y method false alpha ci B bootstrap custom kwargs
          newIdx
        = Except.ok ((f x y kwargs).1, some (f x y kwargs).1,
            some (f x y kwargs).1, (f x y kwargs).2)
      ∧ corr ops bk bs bp x y method false alpha ci B bootstrap custom kwargs
            newIdx
          = corr ops' bk bs bp x y method false alpha ci B bootstrap custom
              kwargs newIdx := by
  intro ops ops'
  have h1 := corr_resolved ops bk bs bp f x y method false alpha ci B
    bootstrap custom kwargs newIdx hres
  have h2 := corr_resolved ops' bk bs bp f x y method false alpha ci B
    bootstrap custom kwargs newIdx hres
  rw [h1, h2, corrWith_degenerate ops f x y method alpha ci B bootstrap kwargs
    newIdx hc, corrWith_degenerate ops' f x y method alpha ci B bootstrap
    kwargs newIdx hc]
  exact ⟨rfl, rfl⟩

/-- Witness for C5: a statistic returning coefficient `1` on `ℚ` makes
`corr` collapse the interval to the point `1`, on the pearson method with
`bootstrap = true`. -/
theorem corr_degenerate_collapse_witness :
    corr ratNumOps oneStat oneStat oneStat [0, 1] [0, 1] "pearson_r" false
        (1 / 20) none 2 true none () []
      = Except.ok (1, some 1, some 1, 0) := by
  have h := (corr_degenerate_collapse oneStat oneStat oneStat oneStat [0, 1]
    [0, 1] "pearson_r" (1 / 20) none 2 true none () []
    (resolveStat_pearson oneStat oneStat oneStat none)
    (by norm_num [oneStat]) ratNumOps ratNumOps).1
  simpa [oneStat] using h

/-- C6: with `skip_ci` true, `corr` returns `(coefficient, null, null,
p_value)` with no further computation, and the coefficient and p-value are
the same values the `skip_ci = false` call on the same inputs (and the same
sampler output `newIdx`) returns in its first and last components. -/
theorem corr_skip_ci_spec
    (ops : Ops α) (bk bs bp f : StatFn α K) (x y : List α) (method : String)
    (alpha : α) (ci : Option α) (B : ℕ) (bootstrap : Bool)
    (custom : Option (StatFn α K)) (kwargs : K) (newIdx : List (List ℕ))
    (hres : resolveStat bk bs bp method custom = Except.ok (some f)) :
    corr ops bk bs bp x y method true alpha ci B bootstrap custom kwargs
        newIdx
      = Except.ok ((f x y kwargs).1, none, none, (f x y kwargs).2)
    ∧ ∀ res : CorrResult α,
        corr ops bk bs bp x y method false alpha ci B bootstrap custom kwargs
            newIdx
          = Except.ok res →
        res.1 = (f x y kwargs).1 ∧ res.2.2.2 = (f x y kwargs).2 := by
  constructor
  · rw [corr_resolved ops bk bs bp f x y method true alpha ci B bootstrap
      custom kwargs newIdx hres, corrWith_skip]
  · intro res h
    rw [corr_resolved ops bk bs bp f x y method false alpha ci B bootstrap
      custom kwargs newIdx hres] at h
    exact corrWith_ok_components ops f x y method alpha ci B bootstrap kwargs
      newIdx res h

/-- Witness for C6: the trivial zero statistic on kendall_tau; the skipped
call returns `(0, none, none, 0)`. -/
theorem corr_skip_ci_spec_witness :
    corr ratNumOps dummyStat dummyStat dummyStat [0, 1] [0, 1] "kendall_tau"
        true (1 / 20) none 2 false none () []
      = Except.ok (0, none, none, 0) := by
  have h := (corr_skip_ci_spec ratNumOps dummyStat dummyStat dummyStat
    dummyStat [0, 1] [0, 1] "kendall_tau" (1 / 20) none 2 false none () []
    (resolveStat_kendall dummyStat dummyStat dummyStat none)).1
  simpa [dummyStat] using h

/-- C8: when `ci` is non-null, `corr` behaves exactly as if `alpha` were
`1 - ci`, regardless of the `alpha` argument: the call with `ci = some v`
equals the call with `alpha = 1 - v` and `ci = none`; in particular
`ci = 0.95` gives the same result as `alpha = 0.05`. -/
theorem corr_ci_overrides_alpha
    (ops : Ops α) (bk bs bp : StatFn α K) (x y : List α) (method : String)
    (skip_ci : Bool) (alpha : α) (B : ℕ) (bootstrap : Bool)
    (custom : Option (StatFn α K)) (kwargs : K) (newIdx : List (List ℕ)) :
    (∀ v : α,
      corr ops bk bs bp x y method skip_ci alpha (some v) B bootstrap custom
          kwargs newIdx
        = corr ops bk bs bp x y method skip_ci (1 - v) none B bootstrap custom
            kwargs newIdx)
    ∧ corr ops bk bs bp x y method skip_ci alpha (some (19 / 20)) B bootstrap
          custom kwargs newIdx
        = corr ops bk bs bp x y method skip_ci (1 / 20) none B bootstrap
            custom kwargs newIdx := by
  have key : ∀ v : α,
      corr ops bk bs bp x y method skip_ci alpha (some v) B bootstrap custom
          kwargs newIdx
        = corr ops bk bs bp x y method skip_ci (1 - v) none B bootstrap custom
            kwargs newIdx := by
    intro v
    unfold corr
    cases resolveStat bk bs bp method custom with
    | error e => rfl
    | ok g =>
      cases g with
      | none => rfl
      | some f => unfold corrWith alphaEff; rfl
  refine ⟨key, ?_⟩
  rw [key (19 / 20)]
  norm_num

/-- C9: for `method = "customized"` with a supplied custom function, the
normal-approximation branch is unreachable for every coefficient (the
threshold is `0` and `|coefficient| ≥ 0`), so `corr` always takes the
resampling branch whatever `bootstrap` is; the standard-error tables, which
have no `"customized"` entry, are never consulted and the missing-key
failure never occurs. -/
theorem corr_customized_avoids_normal
    (ops : Ops α) (bk bs bp f : StatFn α K) (x y : List α) (alpha : α)
    (ci : Option α) (B : ℕ) (kwargs : K) (newIdx : List (List ℕ))
    (hc1 : ¬ |(f x y kwargs).1| = 1) :
    (se_numerator_func (α := α) "customized" = none
      ∧ se_denominator_diff "customized" = none)
    ∧ ∀ bootstrap : Bool,
        corr ops bk bs bp x y "customized" false alpha ci B bootstrap (some f)
            kwargs newIdx
          = Except.ok (bootstrapResult ops f x y kwargs (alphaEff alpha ci) B
              newIdx (f x y kwargs).1 (f x y kwargs).2)
        ∧ corr ops bk bs bp x y "customized" false alpha ci B bootstrap
              (some f) kwargs newIdx
            ≠ Except.error CorrError.missingSEKey := by
  refine ⟨⟨rfl, rfl⟩, ?_⟩
  intro bootstrap
  have hres := resolveStat_customized_some (α := α) (K := K) bk bs bp f
  have h1 := corr_resolved ops bk bs bp f x y "customized" false alpha ci B
    bootstrap (some f) kwargs newIdx hres
  cases bootstrap with
  | true =>
    rw [h1, corrWith_bootstrap_true ops f x y "customized" alpha ci B kwargs
      newIdx hc1]
    exact ⟨rfl, by simp⟩
  | false =>
    have hthres : param_corr_thres (α := α) "customized" = some 0 := rfl
    have habs : ¬ |(f x y kwargs).1| < 0 := not_lt.mpr (abs_nonneg _)
    rw [h1, corrWith_bootstrap_ge ops f x y "customized" alpha ci B kwargs
      newIdx 0 hc1 hthres habs]
    exact ⟨rfl, by simp⟩

/-- Witness for C9: the zero statistic as custom function, `bootstrap`
false; `corr` still lands on the resampling branch. -/
theorem corr_customized_avoids_normal_witness :
    corr ratNumOps dummyStat dummyStat dummyStat [0, 1] [0, 1] "customized"
        false (1 / 20) none 1 false (some dummyStat) () [[0, 0]]
      = Except.ok (bootstrapResult ratNumOps dummyStat [0, 1] [0, 1] ()
          (alphaEff (1 / 20) none) 1 [[0, 0]] 0 0) := by
  have h := ((corr_customized_avoids_normal ratNumOps dummyStat dummyStat
    dummyStat dummyStat [0, 1] [0, 1] (1 / 20) none 1 () [[0, 0]]
    (by norm_num [dummyStat])).2 false).1
  simpa [dummyStat] using h

/-- C1: with `skip_ci` false and `|coefficient| ≠ 1`, the
normal-approximation branch is taken exactly when `bootstrap` is false and
`|coefficient|` is strictly below the method threshold — 0.8 for
kendall_tau, 0.95 for spearman_rho, 1.0 for pearson_r, 0.0 for customized —
and the resampling branch is taken in every other case. -/
theorem corr_branch_selection
    (ops : Ops α) (bk bs bp f : StatFn α K) (x y : List α) (method : String)
    (alpha : α) (ci : Option α) (B : ℕ) (bootstrap : Bool)
    (custom : Option (StatFn α K)) (kwargs : K) (newIdx : List (List ℕ))
    (t : α)
    (hres : resolveStat bk bs bp method custom = Except.ok (some f))
    (hm : method = "kendall_tau" ∨ method = "spearman_rho"
      ∨ method = "pearson_r" ∨ method = "customized")
    (hthres : param_corr_thres (α := α) method = some t)
    (hc1 : ¬ |(f x y kwargs).1| = 1) :
    (param_corr_thres (α := α) "kendall_tau" = some (4 / 5)
      ∧ param_corr_thres (α := α) "spearman_rho" = some (19 / 20)
      ∧ param_corr_thres (α := α) "pearson_r" = some 1
      ∧ param_corr_thres (α := α) "customized" = some 0)
    ∧ (bootstrap = false ∧ |(f x y kwargs).1| < t →
        ∃ num off, se_numerator_func (α := α) method = some num
          ∧ se_denominator_diff method = some off
          ∧ corr ops bk bs bp x y method false alpha ci B bootstrap custom
                kwargs newIdx
              = Except.ok (normalResult ops (f x y kwargs).1 (f x y kwargs).2
                  (alphaEff alpha ci) x.length (num (f x y kwargs).1) off))
    ∧ (¬(bootstrap = false ∧ |(f x y kwargs).1| < t) →
        corr ops bk bs bp x y method false alpha ci B bootstrap custom kwargs
            newIdx
          = Except.ok (bootstrapResult ops f x y kwargs (alphaEff alpha ci) B
              newIdx (f x y kwargs).1 (f x y kwargs).2)) := by
  refine ⟨⟨rfl, rfl, rfl, rfl⟩, ?_, ?_⟩
  · rintro ⟨hb, habs⟩
    subst hb
    have hcw := corr_resolved ops bk bs bp f x y method false alpha ci B
      false custom kwargs newIdx hres
    rcases hm with h | h | h | h <;> subst h
    · exact ⟨_, _, rfl, rfl, by
        rw [hcw, corrWith_normal_eq ops f x y _ alpha ci B kwargs newIdx t _ 4
          hc1 hthres habs rfl rfl]⟩
    · exact ⟨_, _, rfl, rfl, by
        rw [hcw, corrWith_normal_eq ops f x y _ alpha ci B kwargs newIdx t _ 3
          hc1 hthres habs rfl rfl]⟩
    · exact ⟨_, _, rfl, rfl, by
        rw [hcw, corrWith_normal_eq ops f x y _ alpha ci B kwargs newIdx t _ 3
          hc1 hthres habs rfl rfl]⟩
    · exfalso
      have h0 : (some (0 : α)) = some t := hthres
      have ht := Option.some.inj h0
      rw [← ht] at habs
      exact absurd habs (not_lt.mpr (abs_nonneg _))
  · intro hn
    cases bootstrap with
    | true =>
      rw [corr_resolved ops bk bs bp f x y method false alpha ci B true
        custom kwargs newIdx hres, corrWith_bootstrap_true ops f x y method
        alpha ci B kwargs newIdx hc1]
    | false =>
      have habs : ¬ |(f x y kwargs).1| < t := fun hlt => hn ⟨rfl, hlt⟩
      rw [corr_resolved ops bk bs bp f x y method false alpha ci B false
        custom kwargs newIdx hres, corrWith_bootstrap_ge ops f x y method
        alpha ci B kwargs newIdx t hc1 hthres habs]

/-- Witness for C1: kendall_tau with `bootstrap = true` lands on the
resampling branch. -/
theorem corr_branch_selection_witness :
    corr ratNumOps dummyStat dummyStat dummyStat [0, 1] [0, 1] "kendall_tau"
        false (1 / 20) none 1 true none () [[0, 0]]
      = Except.ok (bootstrapResult ratNumOps dummyStat [0, 1] [0, 1] ()
          (alphaEff (1 / 20) none) 1 [[0, 0]] 0 0) := by
  have h := (corr_branch_selection ratNumOps dummyStat dummyStat dummyStat
    dummyStat [0, 1] [0, 1] "kendall_tau" (1 / 20) none 1 true none ()
    [[0, 0]] (4 / 5) (resolveStat_kendall dummyStat dummyStat dummyStat none)
    (Or.inl rfl) rfl (by norm_num [dummyStat])).2.2 (by simp)
  simpa [dummyStat] using h

/-- C2: on the normal-approximation branch `corr` returns exactly the
bounds of the claimed formulas: `z = log((1+c)/(1-c))/2` (`fisherZ`),
`se = sqrt(num/(n - off))` with numerator/offset `0.437`/4 for kendall_tau,
`(1 + c^2/2)`/3 for spearman_rho, `1`/3 for pearson_r, and each bound is
`(exp(2*zb) - 1)/(exp(2*zb) + 1)` (`invFisher`) at
`zb = z ∓ ppf(1 - alpha/2) * se`. -/
theorem corr_normal_formula
    (ops : Ops α) (bk bs bp f : StatFn α K) (x y : List α) (method : String)
    (alpha : α) (B : ℕ) (custom : Option (StatFn α K)) (kwargs : K)
    (newIdx : List (List ℕ)) (t : α)
    (hres : resolveStat bk bs bp method custom = Except.ok (some f))
    (hm : method = "kendall_tau" ∨ method = "spearman_rho"
      ∨ method = "pearson_r")
    (hthres : param_corr_thres (α := α) method = some t)
    (habs : |(f x y kwargs).1| < t) :
    (se_numerator_func (α := α) "kendall_tau" = some (fun _ => 437 / 1000)
      ∧ se_denominator_diff "kendall_tau" = some 4
      ∧ se_numerator_func (α := α) "spearman_rho"
          = some (fun r => 1 + r ^ 2 / 2)
      ∧ se_denominator_diff "spearman_rho" = some 3
      ∧ se_numerator_func (α := α) "pearson_r" = some (fun _ => 1)
      ∧ se_denominator_diff "pearson_r" = some 3)
    ∧ ∃ num off, se_numerator_func (α := α) method = some num
        ∧ se_denominator_diff method = some off
        ∧ corr ops bk bs bp x y method false alpha none B false custom kwargs
              newIdx
            = Except.ok ((f x y kwargs).1,
                some (invFisher ops (fisherZ ops (f x y kwargs).1
                  - ops.ppf (1 - alpha / 2)
                    * ops.sqrt (num (f x y kwargs).1
                        / ((x.length : α) - (off : ℕ))))),
                some (invFisher ops (fisherZ ops (f x y kwargs).1
                  + ops.ppf (1 - alpha / 2)
                    * ops.sqrt (num (f x y kwargs).1
                        / ((x.length : α) - (off : ℕ))))),
                (f x y kwargs).2) := by
  have hcw := corr_resolved ops bk bs bp f x y method false alpha none B
    false custom kwargs newIdx hres
  refine ⟨⟨rfl, rfl, rfl, rfl, rfl, rfl⟩, ?_⟩
  rcases hm with h | h | h <;> subst h
  · have h0 : (some (4 / 5 : α)) = some t := hthres
    have hc1 : ¬ |(f x y kwargs).1| = 1 := by
      intro h1
      rw [h1, ← Option.some.inj h0] at habs
      norm_num at habs
    exact ⟨_, _, rfl, rfl, by
      rw [hcw, corrWith_normal_eq ops f x y _ alpha none B kwargs newIdx t _ 4
        hc1 hthres habs rfl rfl]
      rfl⟩
  · have h0 : (some (19 / 20 : α)) = some t := hthres
    have hc1 : ¬ |(f x y kwargs).1| = 1 := by
      intro h1
      rw [h1, ← Option.some.inj h0] at habs
      norm_num at habs
    exact ⟨_, _, rfl, rfl, by
      rw [hcw, corrWith_normal_eq ops f x y _ alpha none B kwargs newIdx t _ 3
        hc1 hthres habs rfl rfl]
      rfl⟩
  · have h0 : (some (1 : α)) = some t := hthres
    have hc1 : ¬ |(f x y kwargs).1| = 1 := by
      intro h1
      rw [h1, ← Option.some.inj h0] at habs
      norm_num at habs
    exact ⟨_, _, rfl, rfl, by
      rw [hcw, corrWith_normal_eq ops f x y _ alpha none B kwargs newIdx t _ 3
        hc1 hthres habs rfl rfl]
      rfl⟩

/-- Witness for C2: the hypotheses are satisfiable (kendall_tau, zero
statistic, `|0| < 0.8`); the standard-error tables hold the claimed
entries. -/
theorem corr_normal_formula_witness :
    se_numerator_func (α := ℚ) "kendall_tau" = some (fun _ => 437 / 1000)
      ∧ se_denominator_diff "kendall_tau" = some 4
      ∧ se_numerator_func (α := ℚ) "spearman_rho"
          = some (fun r => 1 + r ^ 2 / 2)
      ∧ se_denominator_diff "spearman_rho" = some 3
      ∧ se_numerator_func (α := ℚ) "pearson_r" = some (fun _ => 1)
      ∧ se_denominator_diff "pearson_r" = some 3 :=
  (corr_normal_formula ratNumOps dummyStat dummyStat dummyStat dummyStat
    [0, 1] [0, 1] "kendall_tau" (1 / 20) 2 none () [] (4 / 5)
    (resolveStat_kendall dummyStat dummyStat dummyStat none) (Or.inl rfl) rfl
    (by norm_num [dummyStat])).1

/-- C3: on the resampling branch `corr` returns the `alpha/2` and
`1 - alpha/2` quantiles (the external `np.quantile` capability, linear
interpolation) of the coefficients obtained by applying the statistic, with
`kwargs` forwarded, to `x` and `y` indexed at the *same* drawn row of the
sampler's `(bootstrap_samples, n)` index matrix (paired resampling), keeping
only the first component (p-value discarded); each resampled sequence has
length `n`. -/
theorem corr_bootstrap_branch_spec
    (ops : Ops α) (bk bs bp f : StatFn α K) (x y : List α) (method : String)
    (alpha : α) (ci : Option α) (B : ℕ) (bootstrap : Bool)
    (custom : Option (StatFn α K)) (kwargs : K) (newIdx : List (List ℕ))
    (t : α)
    (hres : resolveStat bk bs bp method custom = Except.ok (some f))
    (hc1 : ¬ |(f x y kwargs).1| = 1)
    (hcond : bootstrap = true
      ∨ (bootstrap = false ∧ param_corr_thres (α := α) method = some t
          ∧ ¬ |(f x y kwargs).1| < t))
    (hlen : newIdx.length = B)
    (hrow : ∀ row ∈ newIdx, row.length = x.length) :
    corr ops bk bs bp x y method false alpha ci B bootstrap custom kwargs
        newIdx
      = Except.ok ((f x y kwargs).1,
          some (ops.quantile (bootstrapCorrs f x y kwargs B newIdx)
            (alphaEff alpha ci / 2)),
          some (ops.quantile (bootstrapCorrs f x y kwargs B newIdx)
            (1 - alphaEff alpha ci / 2)),
          (f x y kwargs).2)
    ∧ bootstrapCorrs f x y kwargs B newIdx
        = (List.range B).map (fun i =>
            (f ((newIdx.getD i []).map (fun j => x.getD j 0))
               ((newIdx.getD i []).map (fun j => y.getD j 0)) kwargs).1)
    ∧ (∀ i, i < B →
        ((newIdx.getD i []).map (fun j => x.getD j 0)).length = x.length) := by
  refine ⟨?_, rfl, ?_⟩
  · rcases hcond with hb | ⟨hb, hthres, habs⟩ <;> subst hb
    · rw [corr_resolved ops bk bs bp f x y method false alpha ci B true
        custom kwargs newIdx hres, corrWith_bootstrap_true ops f x y method
        alpha ci B kwargs newIdx hc1]
      rfl
    · rw [corr_resolved ops bk bs bp f x y method false alpha ci B false
        custom kwargs newIdx hres, corrWith_bootstrap_ge ops f x y method
        alpha ci B kwargs newIdx t hc1 hthres habs]
      rfl
  · intro i hi
    rw [List.length_map]
    have hilt : i < newIdx.length := by rw [hlen]; exact hi
    rw [List.getD_eq_getElem newIdx [] hilt]
    exact hrow _ (List.getElem_mem hilt)

/-- Witness for C3: two data points, one resample row `[1, 0]`, kendall_tau
with `bootstrap = true`. -/
theorem corr_bootstrap_branch_spec_witness :
    corr ratNumOps dummyStat dummyStat dummyStat [0, 1] [0, 1] "kendall_tau"
        false (1 / 20) none 1 true none () [[1, 0]]
      = Except.ok (0,
          some (ratNumOps.quantile
            (bootstrapCorrs dummyStat [0, 1] [0, 1] () 1 [[1, 0]])
            (alphaEff (1 / 20) none / 2)),
          some (ratNumOps.quantile
            (bootstrapCorrs dummyStat [0, 1] [0, 1] () 1 [[1, 0]])
            (1 - alphaEff (1 / 20) none / 2)),
          0) := by
  have h := (corr_bootstrap_branch_spec ratNumOps dummyStat dummyStat
    dummyStat dummyStat [0, 1] [0, 1] "kendall_tau" (1 / 20) none 1 true none
    () [[1, 0]] (4 / 5) (resolveStat_kendall dummyStat dummyStat dummyStat
    none) (by norm_num [dummyStat]) (Or.inl rfl) rfl
    (by intro row hrow; simp at hrow; rw [hrow]; rfl)).1
  simpa [dummyStat] using h

lemma resolveStat_error_invalid_iff (bk bs bp : StatFn α K) (method : String)
    (custom : Option (StatFn α K)) :
    resolveStat bk bs bp method custom = Except.error CorrError.invalidMethod
      ↔ corr_functions bk bs bp method = none := by
  constructor
  · intro h
    unfold resolveStat at h
    by_cases hcust : method = "customized" ∧ custom.isSome = true
    · rw [if_pos hcust] at h
      exact Except.noConfusion h
    · rw [if_neg hcust] at h
      revert h
      cases hcf : corr_functions bk bs bp method with
      | none => intro _; rfl
      | some g => intro h; exact Except.noConfusion h
  · intro h
    have hne : method ≠ "customized" := by
      intro hc
      rw [hc] at h
      exact Option.noConfusion h
    unfold resolveStat
    rw [if_neg (fun hc => hne hc.1), h]

/-- C7 counterexample: selecting `"customized"` without a custom correlation
function does NOT fail with the `InvalidMethod` KeyError — the dict lookup
succeeds (the stored value is `None`) and the failure is the later
not-callable error when the `None` statistic is invoked.  This refutes the
claim's "if" direction. -/
theorem corr_invalid_method_cex :
    corr ratNumOps dummyStat dummyStat dummyStat [0, 1] [0, 1] "customized"
        false (1 / 20) none 1 false none () []
      = Except.error CorrError.noneNotCallable
    ∧ CorrError.noneNotCallable ≠ CorrError.invalidMethod := by
  exact ⟨rfl, fun h => CorrError.noConfusion h⟩

/-- C7 (amended): `corr` fails with the `InvalidMethod` KeyError if and only
if the method selector is outside the enumerated set {kendall_tau,
spearman_rho, pearson_r, customized}; the error depends only on the selector
(the statement is universally quantified over samples, statistic providers
and configuration), so it occurs before any statistic computation.
Selecting `"customized"` without a custom function does not produce
`InvalidMethod`: the statistic resolves to the stored null value and the
failure happens at invocation time instead. -/
theorem corr_invalid_method_iff
    (ops : Ops α) (bk bs bp : StatFn α K) (x y : List α) (method : String)
    (skip_ci : Bool) (alpha : α) (ci : Option α) (B : ℕ) (bootstrap : Bool)
    (custom : Option (StatFn α K)) (kwargs : K) (newIdx : List (List ℕ)) :
    (corr ops bk bs bp x y method skip_ci alpha ci B bootstrap custom kwargs
        newIdx
      = Except.error CorrError.invalidMethod
      ↔ method ∉ (["kendall_tau", "spearman_rho", "pearson_r", "customized"] :
          List String))
    ∧ (corr ops bk bs bp x y "customized" skip_ci alpha ci B bootstrap none
        kwargs newIdx
      ≠ Except.error CorrError.invalidMethod) := by
  have main : corr ops bk bs bp x y method skip_ci alpha ci B bootstrap
      custom kwargs newIdx = Except.error CorrError.invalidMethod
      ↔ resolveStat bk bs bp method custom
          = Except.error CorrError.invalidMethod := by
    constructor
    · intro h
      unfold corr at h
      revert h
      cases hres : resolveStat bk bs bp method custom with
      | error e =>
        intro h
        injection h with he
        rw [he]
      | ok g =>
        cases g with
        | none => intro h; injection h with he; exact absurd he (by simp)
        | some f =>
          intro h
          exact absurd h (corrWith_ne_invalidMethod ops f x y method skip_ci
            alpha ci B bootstrap kwargs newIdx)
    · intro h
      unfold corr
      rw [h]
  constructor
  · rw [main, resolveStat_error_invalid_iff,
      corr_functions_none_iff bk bs bp method]
  · intro h
    unfold corr at h
    rw [resolveStat_customized_none] at h
    exact absurd h (by simp)

/-- C10: on the normal-approximation branch both returned bounds lie
strictly inside `(-1, 1)`: the inverse transform
`(exp(2z) - 1)/(exp(2z) + 1)` maps every value into `(-1, 1)` because the
(external) exponential is strictly positive. -/
theorem corr_normal_bounds_open
    (ops : Ops α) (bk bs bp f : StatFn α K) (x y : List α) (method : String)
    (alpha : α) (ci : Option α) (B : ℕ) (custom : Option (StatFn α K))
    (kwargs : K) (newIdx : List (List ℕ)) (t : α) (num : α → α) (off : ℕ)
    (hexp : ∀ z : α, 0 < ops.exp z)
    (hres : resolveStat bk bs bp method custom = Except.ok (some f))
    (hc1 : ¬ |(f x y kwargs).1| = 1)
    (hthres : param_corr_thres (α := α) method = some t)
    (habs : |(f x y kwargs).1| < t)
    (hnum : se_numerator_func (α := α) method = some num)
    (hoff : se_denominator_diff method = some off) :
    ∃ lo hi,
      corr ops bk bs bp x y method false alpha ci B false custom kwargs newIdx
        = Except.ok ((f x y kwargs).1, some lo, some hi, (f x y kwargs).2)
      ∧ -1 < lo ∧ lo < 1 ∧ -1 < hi ∧ hi < 1 := by
  rw [corr_resolved ops bk bs bp f x y method false alpha ci B false custom
    kwargs newIdx hres, corrWith_normal_eq ops f x y method alpha ci B kwargs
    newIdx t num off hc1 hthres habs hnum hoff]
  exact ⟨invFisher ops (fisherZ ops (f x y kwargs).1
      - ops.ppf (1 - alphaEff alpha ci / 2)
        * ops.sqrt (num (f x y kwargs).1 / ((x.length : α) - (off : ℕ)))),
    invFisher ops (fisherZ ops (f x y kwargs).1
      + ops.ppf (1 - alphaEff alpha ci / 2)
        * ops.sqrt (num (f x y kwargs).1 / ((x.length : α) - (off : ℕ)))),
    rfl, (invFisher_bounds ops hexp _).1, (invFisher_bounds ops hexp _).2,
    (invFisher_bounds ops hexp _).1, (invFisher_bounds ops hexp _).2⟩

/-- Witness for C10: kendall_tau with the zero statistic over ℚ and a
positive exponential surrogate. -/
theorem corr_normal_bounds_open_witness :
    ∃ lo hi,
      corr qFieldOps dummyStat dummyStat dummyStat [0, 1] [0, 1] "kendall_tau"
          false (1 / 20) none 2 false none () []
        = Except.ok ((dummyStat [0, 1] [0, 1] ()).1, some lo, some hi,
            (dummyStat [0, 1] [0, 1] ()).2)
      ∧ -1 < lo ∧ lo < 1 ∧ -1 < hi ∧ hi < 1 :=
  corr_normal_bounds_open qFieldOps dummyStat dummyStat dummyStat dummyStat
    [0, 1] [0, 1] "kendall_tau" (1 / 20) none 2 none () [] (4 / 5)
    (fun _ => 437 / 1000) 4 qexpFn_pos
    (resolveStat_kendall dummyStat dummyStat dummyStat none)
    (by norm_num [dummyStat]) rfl (by norm_num [dummyStat]) rfl rfl

/-- C4 counterexample: on the resampling branch the returned bounds are
quantiles of the bootstrap coefficients and need not bracket the
full-sample coefficient.  With the in-contract statistic `cexStat`
(coefficient clamped to `[-1, 1]`), samples `x = y = [0, 1]`, customized
method, one resample with drawn index row `[1, 1]`, `corr` returns
coefficient `0` with bounds `(1, 1)`, so `lower ≤ coefficient` fails. -/
theorem corr_bounds_order_cex :
    corr ratNumOps dummyStat dummyStat dummyStat [0, 1] [0, 1] "customized"
        false (1 / 20) none 1 false (some cexStat) () [[1, 1]]
      = Except.ok (0, some 1, some 1, 0)
    ∧ ¬ ((1 : ℚ) ≤ 0) := by
  constructor
  · norm_num [corr, corrWith, resolveStat, corr_functions, param_corr_thres,
      bootstrapResult, bootstrapCorrs, resampleRow, alphaEff, cexStat,
      ratNumOps, npQuantile, sortAsc, insertSorted, List.range_succ]
    rfl
  · norm_num

/-- C4 (amended): on the normal-approximation branch (`bootstrap` false,
`|coefficient|` below the method threshold `t ≤ 1`), provided the numeric
capabilities satisfy their contracts — `exp` positive and monotone, `exp`
a right inverse of `log` on positives, `sqrt` nonnegative, and
`Φ⁻¹(1 - alpha/2) ≥ 0` — the returned bounds satisfy
`lower ≤ coefficient ≤ upper`.  (On the resampling branch the ordering can
fail for some sampler draws; see the counterexample.) -/
theorem corr_normal_bounds_order
    (ops : Ops α) (bk bs bp f : StatFn α K) (x y : List α) (method : String)
    (alpha : α) (ci : Option α) (B : ℕ) (custom : Option (StatFn α K))
    (kwargs : K) (newIdx : List (List ℕ)) (t : α) (num : α → α) (off : ℕ)
    (hexp : ∀ z : α, 0 < ops.exp z)
    (hmono : ∀ a b : α, a ≤ b → ops.exp a ≤ ops.exp b)
    (hexplog : ∀ w : α, 0 < w → ops.exp (ops.log w) = w)
    (hsqrt : ∀ v : α, 0 ≤ ops.sqrt v)
    (hppf : 0 ≤ ops.ppf (1 - alphaEff alpha ci / 2))
    (hres : resolveStat bk bs bp method custom = Except.ok (some f))
    (hthres : param_corr_thres (α := α) method = some t)
    (ht1 : t ≤ 1)
    (habs : |(f x y kwargs).1| < t)
    (hnum : se_numerator_func (α := α) method = some num)
    (hoff : se_denominator_diff method = some off) :
    ∀ lo hi,
      corr ops bk bs bp x y method false alpha ci B false custom kwargs newIdx
        = Except.ok ((f x y kwargs).1, some lo, some hi, (f x y kwargs).2) →
      lo ≤ (f x y kwargs).1 ∧ (f x y kwargs).1 ≤ hi := by
  intro lo hi heq
  have hc' : |(f x y kwargs).1| < 1 := lt_of_lt_of_le habs ht1
  have hc1 : ¬ |(f x y kwargs).1| = 1 := fun h => (lt_irrefl (1 : α)) (h ▸ hc')
  rw [corr_resolved ops bk bs bp f x y method false alpha ci B false custom
    kwargs newIdx hres, corrWith_normal_eq ops f x y method alpha ci B kwargs
    newIdx t num off hc1 hthres habs hnum hoff] at heq
  have h2 := Except.ok.inj heq
  simp only [normalResult, Prod.mk.injEq, Option.some.injEq] at h2
  obtain ⟨-, hlo, hhi, -⟩ := h2
  have hu0 : 0 ≤ ops.ppf (1 - alphaEff alpha ci / 2)
      * ops.sqrt (num (f x y kwargs).1 / ((x.length : α) - (off : ℕ))) :=
    mul_nonneg hppf (hsqrt _)
  subst hlo hhi
  constructor
  · calc invFisher ops (fisherZ ops (f x y kwargs).1
          - ops.ppf (1 - alphaEff alpha ci / 2)
            * ops.sqrt (num (f x y kwargs).1 / ((x.length : α) - (off : ℕ))))
        ≤ invFisher ops (fisherZ ops (f x y kwargs).1) :=
          invFisher_mono ops hexp hmono (by linarith)
      _ = (f x y kwargs).1 := invFisher_fisherZ ops hexplog hc'
  · calc (f x y kwargs).1
        = invFisher ops (fisherZ ops (f x y kwargs).1) :=
          (invFisher_fisherZ ops hexplog hc').symm
      _ ≤ invFisher ops (fisherZ ops (f x y kwargs).1
          + ops.ppf (1 - alphaEff alpha ci / 2)
            * ops.sqrt (num (f x y kwargs).1 / ((x.length : α) - (off : ℕ)))) :=
          invFisher_mono ops hexp hmono (by linarith)

/-- Witness for C4's amended theorem: kendall_tau with the zero statistic
over ℚ; all capability contracts are discharged by the concrete surrogates
and the normal-branch call evaluates to the point interval at `0`. -/
theorem corr_normal_bounds_order_witness :
    (0 : ℚ) ≤ (dummyStat [0, 1] [0, 1] ()).1
      ∧ (dummyStat [0, 1] [0, 1] ()).1 ≤ 0 := by
  refine corr_normal_bounds_order qFieldOps dummyStat dummyStat dummyStat
    dummyStat [0, 1] [0, 1] "kendall_tau" (1 / 20) none 2 none () [] (4 / 5)
    (fun _ => 437 / 1000) 4 qexpFn_pos qexpFn_mono qexpFn_qlogFn
    (fun _ => le_refl 0) (le_refl 0)
    (resolveStat_kendall dummyStat dummyStat dummyStat none) rfl
    (by norm_num) (by norm_num [dummyStat]) rfl rfl 0 0 ?_
  norm_num [corr, corrWith, resolveStat, corr_functions, param_corr_thres,
    se_numerator_func, se_denominator_diff, normalResult, fisherZ, invFisher,
    alphaEff, qFieldOps, qexpFn, qlogFn, dummyStat]
